import Mathlib

/-!
Verification of the subscribe layer of rancher/apiserver.

The development shallowly embeds the debouncer of
pkg/subscribe/debouncer.go as a transition system: every iteration of the
select loop in debouncer.Run is one Action (cancellation fired, an input
event was received, the input channel was observed closed, or the debounce
timer fired), and sends on the output channel are appends to an output
list.  A schedule (a list of Actions) is valid when the timer only fires
while it is armed, which in the source happens exactly in state
TimerStarted.

The watch-session entry point WatchSession.stream is not part of the
sources; only its test is.  It is modelled from the specification, see the
definitions marked accordingly below.
-/

namespace Apiserver

/-- An API event as in pkg/types, restricted to the fields the subscribe
package reads or writes.  Go zero values are the defaults; the Go nil
error is none. -/
structure APIEvent where
  name : String := ""
  resourceType : String := ""
  ns : String := ""
  id : String := ""
  selector : String := ""
  mode : String := ""
  revision : String := ""
  data : Option String := none
  error : Option String := none
deriving DecidableEq, Repr

/-- The constant SubscriptionModeNotification, whose string value names the
debounced notification event resource.changes. -/
def SubscriptionModeNotification : String := "resource.changes"

/-- The three debouncer states of pkg/subscribe/debouncer.go. -/
inductive DebouncerState where
  | FirstNotification
  | TimerStarted
  | TimerStopped
deriving DecidableEq, Repr

/-- The mutable state of debouncer.Run: the state machine position, the
latest revision watermark, the events sent on the output channel so far,
and whether the loop has exited (after which the output channel is
closed). -/
structure DebState where
  state : DebouncerState := DebouncerState.FirstNotification
  latestRV : String := ""
  outputs : List APIEvent := []
  finished : Bool := false
deriving DecidableEq, Repr

/-- One iteration of the select loop in debouncer.Run: the cancellation
signal fired, an event was received from the input channel (ok = true),
the input channel was observed closed (ok = false, zero event), or the
debounce timer fired. -/
inductive Action where
  | ctxDone
  | recv (ev : APIEvent)
  | inClosed
  | timerFire
deriving DecidableEq, Repr

/-- The coalesced notification event the debouncer emits: only Name and
Revision are populated, exactly as in debouncer.Run. -/
def notificationEvent (rev : String) : APIEvent :=
  { name := SubscriptionModeNotification, revision := rev }

/-- The input-channel arm of debouncer.Run for a received event
(ok = true): an event with a non-nil Error is forwarded with its Name
overwritten and the loop exits; otherwise latestRV is updated and the
state machine advances, emitting immediately only from
FirstNotification. -/
def stepRecv (s : DebState) (ev : APIEvent) : DebState :=
  match ev.error with
  | some _ =>
      { s with outputs := s.outputs ++ [{ ev with name := SubscriptionModeNotification }],
               finished := true }
  | none =>
      match s.state with
      | DebouncerState.FirstNotification =>
          { s with latestRV := ev.revision,
                   outputs := s.outputs ++ [notificationEvent ev.revision],
                   state := DebouncerState.TimerStopped }
      | DebouncerState.TimerStopped =>
          { s with latestRV := ev.revision, state := DebouncerState.TimerStarted }
      | DebouncerState.TimerStarted =>
          { s with latestRV := ev.revision }

/-- One select iteration of debouncer.Run.  Once the loop has exited
(finished) no further select happens, so later actions leave the state
unchanged.  On cancellation or input closure the loop exits; the timer arm
unconditionally emits the latest revision and stops the timer. -/
def step (s : DebState) (a : Action) : DebState :=
  if s.finished then s
  else
    match a with
    | Action.ctxDone => { s with finished := true }
    | Action.inClosed => { s with finished := true }
    | Action.recv ev => stepRecv s ev
    | Action.timerFire =>
        { s with outputs := s.outputs ++ [notificationEvent s.latestRV],
                 state := DebouncerState.TimerStopped }

/-- The select loop of debouncer.Run over a schedule of actions. -/
def loopRun (s : DebState) : List Action → DebState
  | [] => s
  | a :: rest => loopRun (step s a) rest

/-- The initial state of debouncer.Run: state FirstNotification, empty
latest revision, nothing emitted, loop running. -/
def initState : DebState := {}

/-- A whole execution of debouncer.Run against a schedule. -/
def debouncerRun (acts : List Action) : DebState := loopRun initState acts

/-- An observable item on the output channel: either an event or the
closing of the channel. -/
inductive OutItem where
  | ev (e : APIEvent)
  | closeMark
deriving DecidableEq, Repr

/-- The full observable output-channel history of debouncer.Run: the
emitted events, followed by the close marker when the loop has exited
(close of outCh is the single statement after the loop). -/
def runItems (acts : List Action) : List OutItem :=
  (debouncerRun acts).outputs.map OutItem.ev ++
    (if (debouncerRun acts).finished then [OutItem.closeMark] else [])

/-- Number of close markers in an output-channel history. -/
def countClose : List OutItem → Nat
  | [] => 0
  | OutItem.closeMark :: rest => countClose rest + 1
  | OutItem.ev _ :: rest => countClose rest

/-- The debounce timer of the source is armed exactly in state
TimerStarted: it is stopped at construction, reset on the transition
TimerStopped to TimerStarted, and consumed or stopped otherwise. -/
def timerArmed : DebouncerState → Bool
  | DebouncerState.TimerStarted => true
  | _ => false

/-- A schedule is valid from a state when every timerFire action occurs
while the timer is armed (or after the loop exited, where it is
ignored). -/
def validFrom (s : DebState) : List Action → Bool
  | [] => true
  | a :: rest =>
      (match a with
       | Action.timerFire => s.finished || timerArmed s.state
       | _ => true) && validFrom (step s a) rest

/-- The input events carried by a schedule, in arrival order. -/
def inputsOf (acts : List Action) : List APIEvent :=
  acts.filterMap (fun a => match a with | Action.recv ev => some ev | _ => none)

/-- An action is terminal when handling it exits the select loop:
cancellation, input closure, or an input event with non-nil Error. -/
def Action.isTerminal : Action → Bool
  | Action.ctxDone => true
  | Action.inClosed => true
  | Action.recv ev => ev.error.isSome
  | Action.timerFire => false

/-- The state of the instrumented debouncer run: the same data as DebState
together with ghost bookkeeping — the zero-based position of the input
event that latestRV came from, the number of inputs received so far, and
for every emitted event the position of the input it was taken from. -/
structure DebStateI where
  state : DebouncerState := DebouncerState.FirstNotification
  latestRV : String := ""
  latestPos : Nat := 0
  count : Nat := 0
  outputs : List (APIEvent × Nat) := []
  finished : Bool := false
deriving DecidableEq, Repr

/-- Instrumented version of stepRecv: identical transitions, with input
positions recorded alongside. -/
def stepRecvI (s : DebStateI) (ev : APIEvent) : DebStateI :=
  match ev.error with
  | some _ =>
      { s with outputs :=
                 s.outputs ++ [({ ev with name := SubscriptionModeNotification }, s.count)],
               count := s.count + 1,
               finished := true }
  | none =>
      match s.state with
      | DebouncerState.FirstNotification =>
          { s with latestRV := ev.revision, latestPos := s.count,
                   outputs := s.outputs ++ [(notificationEvent ev.revision, s.count)],
                   count := s.count + 1,
                   state := DebouncerState.TimerStopped }
      | DebouncerState.TimerStopped =>
          { s with latestRV := ev.revision, latestPos := s.count,
                   count := s.count + 1,
                   state := DebouncerState.TimerStarted }
      | DebouncerState.TimerStarted =>
          { s with latestRV := ev.revision, latestPos := s.count,
                   count := s.count + 1 }

/-- Instrumented version of step. -/
def stepI (s : DebStateI) (a : Action) : DebStateI :=
  if s.finished then s
  else
    match a with
    | Action.ctxDone => { s with finished := true }
    | Action.inClosed => { s with finished := true }
    | Action.recv ev => stepRecvI s ev
    | Action.timerFire =>
        { s with outputs := s.outputs ++ [(notificationEvent s.latestRV, s.latestPos)],
                 state := DebouncerState.TimerStopped }

/-- Instrumented select loop. -/
def loopRunI (s : DebStateI) : List Action → DebStateI
  | [] => s
  | a :: rest => loopRunI (stepI s a) rest

/-- Instrumented initial state. -/
def initStateI : DebStateI := {}

/-- Instrumented whole execution. -/
def debouncerRunI (acts : List Action) : DebStateI := loopRunI initStateI acts

/-- Erasing the ghost positions recovers the plain debouncer state. -/
def eraseI (s : DebStateI) : DebState :=
  { state := s.state, latestRV := s.latestRV,
    outputs := s.outputs.map Prod.fst, finished := s.finished }

theorem eraseI_stepRecv (s : DebStateI) (ev : APIEvent) :
    eraseI (stepRecvI s ev) = stepRecv (eraseI s) ev := by
  unfold stepRecvI stepRecv eraseI
  cases ev.error <;> cases s.state <;> simp

theorem eraseI_step (s : DebStateI) (a : Action) :
    eraseI (stepI s a) = step (eraseI s) a := by
  have hfe : (eraseI s).finished = s.finished := rfl
  unfold stepI step
  rw [hfe]
  cases hf : s.finished
  · simp only [Bool.false_eq_true, if_false]
    cases a
    · rfl
    · exact eraseI_stepRecv s _
    · rfl
    · simp [eraseI]
  · simp

theorem eraseI_loopRun (acts : List Action) :
    ∀ s : DebStateI, eraseI (loopRunI s acts) = loopRun (eraseI s) acts := by
  induction acts with
  | nil => intro s; rfl
  | cons a rest ih =>
      intro s
      simp only [loopRunI, loopRun, ih, eraseI_step]

theorem eraseI_run (acts : List Action) :
    eraseI (debouncerRunI acts) = debouncerRun acts := by
  have h : eraseI initStateI = initState := rfl
  simpa [debouncerRunI, debouncerRun, h] using eraseI_loopRun acts initStateI

/-- A subscribe control message, as in the wire protocol: the scope of the
watch (resourceType, id, namespace, selector), the resume watermark, the
delivery mode, and the stop flag. -/
structure Subscribe where
  resourceType : String := ""
  id : String := ""
  ns : String := ""
  selector : String := ""
  resourceVersion : String := ""
  mode : String := ""
  stop : Bool := false
deriving DecidableEq, Repr

/-- Modelled from the spec: a registered schema as seen by the watch
session.  The only property the start path consults is whether the
schema's store supports watching (a schema registered without a store
cannot watch). -/
structure SchemaM where
  hasWatchStore : Bool := false
deriving DecidableEq, Repr

/-- Modelled from the spec: the collaborators consumed by one stream call —
the schema lookup table, the access-control answer to canWatch for this
request, and the store's watch operation as the channel of upstream events
it would produce (or the error the watch call returns). -/
structure WatchEnv where
  schemas : List (String × SchemaM) := []
  canWatch : Bool := true
  upstream : List APIEvent := []
  watchErr : Option String := none
deriving DecidableEq, Repr

/-- Modelled from the spec: the synchronous start-time failure taxonomy of
the error-handling design. -/
inductive StreamErr where
  | SchemaNotFound
  | UnsupportedOperation
  | Forbidden
  | UpstreamWatchError (msg : String)
deriving DecidableEq, Repr

/-- Schema lookup by resource type. -/
def lookupSchema (schemas : List (String × SchemaM)) (resourceType : String) :
    Option SchemaM :=
  (schemas.find? (fun p => p.fst == resourceType)).map Prod.snd

/-- Modelled from the spec: the resource.start event emitted synchronously
on a successful start, carrying the scope fields of the request so the
client can correlate. -/
def startEvent (sub : Subscribe) : APIEvent :=
  { name := "resource.start", resourceType := sub.resourceType,
    ns := sub.ns, id := sub.id, selector := sub.selector, mode := sub.mode }

/-- Modelled from the spec: the relay of one upstream event.  In
notification mode only a resource.changes notification carrying the
revision and the scope is emitted, with no data payload; otherwise the
full upstream event is forwarded decorated with the scope fields. -/
def relayEvent (sub : Subscribe) (ev : APIEvent) : APIEvent :=
  if sub.mode = SubscriptionModeNotification then
    { name := SubscriptionModeNotification, resourceType := sub.resourceType,
      ns := sub.ns, mode := sub.mode, revision := ev.revision }
  else
    { ev with resourceType := sub.resourceType, ns := sub.ns,
              id := sub.id, selector := sub.selector }

/-- Modelled from the spec: WatchSession.stream, whose implementation is
not among the sources (only its test is).  It resolves the schema
(SchemaNotFound if absent), verifies the store supports watching
(UnsupportedOperation), consults access control (Forbidden), opens the
upstream watch (propagating its error), then emits resource.start followed
by the relayed upstream events.  A synchronous error means nothing is
written to the outbound channel. -/
def stream (env : WatchEnv) (sub : Subscribe) : Except StreamErr (List APIEvent) :=
  match lookupSchema env.schemas sub.resourceType with
  | none => Except.error StreamErr.SchemaNotFound
  | some sch =>
      if sch.hasWatchStore then
        if env.canWatch then
          match env.watchErr with
          | some msg => Except.error (StreamErr.UpstreamWatchError msg)
          | none => Except.ok (startEvent sub :: env.upstream.map (relayEvent sub))
        else Except.error StreamErr.Forbidden
      else Except.error StreamErr.UnsupportedOperation

/-- Modelled from the spec: the watch key deriving the identity of a pump
from resourceType plus whichever of id, namespace and selector were
supplied. -/
def watchKey (sub : Subscribe) : String :=
  sub.resourceType ++ "/" ++ sub.ns ++ "/" ++ sub.id ++ "/" ++ sub.selector

/-- Result of a session start call: the updated pump registry, the
synchronous error if any, and the events written to the outbound
channel. -/
structure StartResult where
  pumps : List String := []
  err : Option StreamErr := none
  emitted : List APIEvent := []
deriving DecidableEq, Repr

/-- Modelled from the spec: the session start path.  A start for an
already-active watch key is an idempotent no-op; otherwise the pump is
launched through stream, and on a synchronous start failure the error is
returned to the caller without registering a pump and with nothing
emitted. -/
def startPump (pumps : List String) (env : WatchEnv) (sub : Subscribe) : StartResult :=
  if watchKey sub ∈ pumps then { pumps := pumps }
  else
    match stream env sub with
    | Except.error e => { pumps := pumps, err := some e }
    | Except.ok outs => { pumps := pumps ++ [watchKey sub], emitted := outs }

/-- Once the select loop of debouncer.Run has exited, no further action
changes the state. -/
theorem loopRun_finished (acts : List Action) :
    ∀ s : DebState, s.finished = true → loopRun s acts = s := by
  induction acts with
  | nil => intro s _; rfl
  | cons a rest ih =>
      intro s hs
      have hstep : step s a = s := by unfold step; rw [hs]; rfl
      simp only [loopRun, hstep, ih s hs]

/-- The finished flag never resets. -/
theorem step_finished_mono (s : DebState) (a : Action) (h : s.finished = true) :
    (step s a).finished = true := by
  unfold step; rw [h]; exact h

/-- A terminal action exits the loop. -/
theorem step_terminal (s : DebState) (a : Action) (h : a.isTerminal = true) :
    (step s a).finished = true := by
  unfold step
  cases hf : s.finished
  · cases a with
    | ctxDone => rfl
    | inClosed => rfl
    | timerFire => simp [Action.isTerminal] at h
    | recv ev =>
        simp only [if_false]
        unfold stepRecv
        cases he : ev.error with
        | none => rw [Action.isTerminal, he] at h; simp at h
        | some msg => rfl
  · exact hf

/-- Running the loop over concatenated schedules composes. -/
theorem loopRun_append (xs ys : List Action) :
    ∀ s : DebState, loopRun s (xs ++ ys) = loopRun (loopRun s xs) ys := by
  induction xs with
  | nil => intro s; rfl
  | cons a rest ih => intro s; simpa only [List.cons_append, loopRun] using ih (step s a)

/-- The last element of a list extended by one element. -/
theorem getLast?_snoc {α : Type} (l : List α) (x : α) : (l ++ [x]).getLast? = some x := by
  rw [List.getLast?_append_cons]; rfl

/-- If a schedule contains a terminal action, the select loop exits. -/
theorem loopRun_terminal (acts : List Action) :
    ∀ s : DebState, (∃ a ∈ acts, a.isTerminal = true) → (loopRun s acts).finished = true := by
  induction acts with
  | nil =>
      intro s h
      rcases h with ⟨a, ha, _⟩
      cases ha
  | cons a rest ih =>
      intro s h
      rcases h with ⟨b, hb, hbt⟩
      rcases List.mem_cons.mp hb with hba | hbr
      · subst hba
        have hdone : (step s b).finished = true := step_terminal s b hbt
        simp only [loopRun]
        rw [loopRun_finished rest _ hdone]
        exact hdone
      · exact ih (step s a) ⟨b, hbr, hbt⟩

/-- Close markers never occur among plain emitted events. -/
theorem countClose_map_ev (l : List APIEvent) : countClose (l.map OutItem.ev) = 0 := by
  induction l with
  | nil => rfl
  | cons a t ih => simpa [countClose] using ih

/-- An output history of events followed by one close marker contains
exactly one close marker. -/
theorem countClose_events_close (l : List APIEvent) :
    countClose (l.map OutItem.ev ++ [OutItem.closeMark]) = 1 := by
  induction l with
  | nil => rfl
  | cons a t ih => simpa [countClose] using ih

/-- Helper: handling an input event with a non-nil Error forwards it with
its Name overwritten to the notification name, exits the loop, and ignores
the remaining schedule. -/
theorem error_recv_run (s : DebState) (ev : APIEvent) (rest : List Action)
    (hs : s.finished = false) {msg : String} (hmsg : ev.error = some msg) :
    loopRun s (Action.recv ev :: rest) =
      { s with outputs := s.outputs ++ [{ ev with name := SubscriptionModeNotification }],
               finished := true } := by
  have hstep : step s (Action.recv ev) =
      { s with outputs := s.outputs ++ [{ ev with name := SubscriptionModeNotification }],
               finished := true } := by
    unfold step
    rw [hs]
    simp only [Bool.false_eq_true, if_false]
    unfold stepRecv
    rw [hmsg]
  simp only [loopRun, hstep]
  exact loopRun_finished rest _ rfl

/-- The schedule induced by the timing of TestDebouncer: five buffered
events with revisions 0 to 4 are all received within the first debounce
window, the timer armed by the second event fires once (at 100ms), and the
input channel closes afterwards (at 200ms). -/
def testSchedule : List Action :=
  [Action.recv { revision := "0" }, Action.recv { revision := "1" },
   Action.recv { revision := "2" }, Action.recv { revision := "3" },
   Action.recv { revision := "4" }, Action.timerFire, Action.inClosed]

/-- Claim C2: feeding the debouncer five events with revisions 0 to 4
within one debounce window and closing the input after the window yields
exactly two notifications, the first with revision 0 (emitted
immediately) and the second with revision 4; the schedule is valid and
the run terminates. -/
theorem debouncer_two_notifications :
    validFrom initState testSchedule = true ∧
    (debouncerRun testSchedule).outputs = [notificationEvent "0", notificationEvent "4"] ∧
    (debouncerRun testSchedule).finished = true :=
  ⟨rfl, rfl, rfl⟩

/-- Claim C3 (divergence evidence): when the cancellation signal fires,
debouncer.Run exits its loop at once and closes the output channel,
regardless of any later producer activity on the input channel: the whole
remaining schedule is never processed, so the input channel is not
drained and a subsequent producer send is never received. -/
theorem debouncer_cancel_closes_immediately (rest : List Action) :
    debouncerRun (Action.ctxDone :: rest) = { initState with finished := true } ∧
    runItems (Action.ctxDone :: rest) = [OutItem.closeMark] := by
  have h1 : debouncerRun (Action.ctxDone :: rest) = { initState with finished := true } := by
    unfold debouncerRun
    simp only [loopRun]
    have hstep : step initState Action.ctxDone = { initState with finished := true } := rfl
    rw [hstep]
    exact loopRun_finished rest _ rfl
  refine ⟨h1, ?_⟩
  unfold runItems
  rw [h1]
  rfl

/-- Claim C4: an input event with a non-nil Error is forwarded on the
output channel immediately (with its Name overwritten to the notification
name) and the debouncer then terminates: the loop exits, any pending timer
and all further scheduled actions are ignored, no further event is
emitted, and the output channel is closed. -/
theorem debouncer_error_terminates (s : DebState) (ev : APIEvent) (rest : List Action)
    (hs : s.finished = false) (he : ev.error.isSome = true) :
    loopRun s (Action.recv ev :: rest) =
      { s with outputs := s.outputs ++ [{ ev with name := SubscriptionModeNotification }],
               finished := true } := by
  rcases Option.isSome_iff_exists.mp he with ⟨msg, hmsg⟩
  exact error_recv_run s ev rest hs hmsg

/-- Witness for claim C4 at a concrete error event and a pending timer
action. -/
theorem debouncer_error_terminates_witness :
    initState.finished = false ∧
    (({ error := some "boom" } : APIEvent)).error.isSome = true ∧
    loopRun initState [Action.recv { error := some "boom" }, Action.timerFire] =
      { initState with
        outputs := [{ name := SubscriptionModeNotification, error := some "boom" }],
        finished := true } :=
  ⟨rfl, rfl,
    debouncer_error_terminates initState { error := some "boom" } [Action.timerFire] rfl rfl⟩

/-- Claim C8: whenever a schedule reaches a terminating condition (error
event, input closure, or cancellation), the output channel history ends
with the close marker and contains it exactly once. -/
theorem debouncer_closes_output_once (acts : List Action)
    (h : ∃ a ∈ acts, a.isTerminal = true) :
    countClose (runItems acts) = 1 ∧
    (runItems acts).getLast? = some OutItem.closeMark := by
  have hf : (debouncerRun acts).finished = true := loopRun_terminal acts initState h
  unfold runItems
  rw [hf]
  simp only [if_true]
  exact ⟨countClose_events_close _, getLast?_snoc _ _⟩

/-- Witness for claim C8: an input channel that closes before any event. -/
theorem debouncer_closes_output_once_witness :
    countClose (runItems [Action.inClosed]) = 1 ∧
    (runItems [Action.inClosed]).getLast? = some OutItem.closeMark :=
  debouncer_closes_output_once [Action.inClosed]
    ⟨Action.inClosed, by decide, by decide⟩

/-- Claim C10: the event the debouncer emits for an upstream error has its
Name field overwritten to the notification name resource.changes while its
Error field is preserved; in particular an original name such as
resource.error does not survive the debouncer. -/
theorem debouncer_error_renamed (s : DebState) (ev : APIEvent) (rest : List Action)
    (hs : s.finished = false) (he : ev.error.isSome = true) :
    (loopRun s (Action.recv ev :: rest)).outputs.getLast?
        = some { ev with name := SubscriptionModeNotification } ∧
    ({ ev with name := SubscriptionModeNotification } : APIEvent).error = ev.error ∧
    ({ ev with name := SubscriptionModeNotification } : APIEvent).name
        = SubscriptionModeNotification ∧
    (ev.name ≠ SubscriptionModeNotification →
      ({ ev with name := SubscriptionModeNotification } : APIEvent).name ≠ ev.name) := by
  rcases Option.isSome_iff_exists.mp he with ⟨msg, hmsg⟩
  rw [error_recv_run s ev rest hs hmsg]
  refine ⟨getLast?_snoc _ _, rfl, rfl, ?_⟩
  intro h hEq
  exact h hEq.symm

/-- Witness for claim C10 at a concrete resource.error event. -/
theorem debouncer_error_renamed_witness :
    initState.finished = false ∧
    (({ name := "resource.error", error := some "boom" } : APIEvent)).error.isSome = true ∧
    (loopRun initState [Action.recv { name := "resource.error", error := some "boom" }]).outputs.getLast?
        = some { name := SubscriptionModeNotification, error := some "boom" } ∧
    ({ name := SubscriptionModeNotification, error := some "boom" } : APIEvent).error
        = some "boom" ∧
    ({ name := SubscriptionModeNotification, error := some "boom" } : APIEvent).name
        = SubscriptionModeNotification ∧
    ("resource.error" ≠ SubscriptionModeNotification →
      ({ name := SubscriptionModeNotification, error := some "boom" } : APIEvent).name
        ≠ "resource.error") :=
  ⟨rfl, rfl,
    debouncer_error_renamed initState { name := "resource.error", error := some "boom" } []
      rfl rfl⟩

/-- Reduction of step for a received event while the loop is running. -/
theorem step_recv_eq (s : DebState) (ev : APIEvent) (h : s.finished = false) :
    step s (Action.recv ev) = stepRecv s ev := by
  unfold step; rw [h]; rfl

/-- Reduction of stepRecv from FirstNotification for an error-free
event. -/
theorem stepRecv_first (s : DebState) (ev : APIEvent) (he : ev.error = none)
    (hs : s.state = DebouncerState.FirstNotification) :
    stepRecv s ev =
      { state := DebouncerState.TimerStopped, latestRV := ev.revision,
        outputs := s.outputs ++ [notificationEvent ev.revision],
        finished := s.finished } := by
  unfold stepRecv; rw [he, hs]

/-- Reduction of stepRecv from TimerStopped for an error-free event. -/
theorem stepRecv_stopped (s : DebState) (ev : APIEvent) (he : ev.error = none)
    (hs : s.state = DebouncerState.TimerStopped) :
    stepRecv s ev =
      { state := DebouncerState.TimerStarted, latestRV := ev.revision,
        outputs := s.outputs, finished := s.finished } := by
  unfold stepRecv; rw [he, hs]

/-- Reduction of stepRecv from TimerStarted for an error-free event. -/
theorem stepRecv_started (s : DebState) (ev : APIEvent) (he : ev.error = none)
    (hs : s.state = DebouncerState.TimerStarted) :
    stepRecv s ev =
      { state := DebouncerState.TimerStarted, latestRV := ev.revision,
        outputs := s.outputs, finished := s.finished } := by
  unfold stepRecv; rw [he, hs]

/-- Invariant of the latest-revision tracking along a valid, non-terminal
schedule: the loop keeps running, the machine is past FirstNotification
exactly when an input has arrived, latestRV carries the revision of the
last input, something has been emitted as soon as an input arrived, and
whenever no coalescing window is pending the last emitted notification
already carries the latest revision. -/
def C1Inv (s : DebState) (ins : List APIEvent) : Prop :=
  s.finished = false ∧
  (s.state = DebouncerState.FirstNotification ↔ ins = []) ∧
  (s.state = DebouncerState.FirstNotification → s.outputs = []) ∧
  (ins ≠ [] → (ins.getLast?).map APIEvent.revision = some s.latestRV) ∧
  (s.state ≠ DebouncerState.TimerStarted →
     (s.outputs.getLast?).map APIEvent.revision = (ins.getLast?).map APIEvent.revision) ∧
  (ins ≠ [] → s.outputs ≠ [])

/-- The invariant holds initially. -/
theorem c1inv_init : C1Inv initState [] := by
  refine ⟨rfl, ?_, fun _ => rfl, ?_, fun _ => rfl, ?_⟩
  · exact ⟨fun _ => rfl, fun _ => rfl⟩
  · intro h; exact absurd rfl h
  · intro h; exact absurd rfl h

/-- The input events carried by a cons schedule. -/
theorem inputsOf_cons (a : Action) (rest : List Action) :
    inputsOf (a :: rest) = inputsOf [a] ++ inputsOf rest := by
  cases a <;> simp [inputsOf, List.filterMap_cons]

/-- One valid, non-terminal step preserves the invariant. -/
theorem c1inv_step (s : DebState) (ins : List APIEvent) (a : Action)
    (hI : C1Inv s ins) (hnt : a.isTerminal = false)
    (hv : a = Action.timerFire → timerArmed s.state = true) :
    C1Inv (step s a) (ins ++ inputsOf [a]) := by
  obtain ⟨h1, h2, h3, h4, h5, h6⟩ := hI
  cases a with
  | ctxDone => simp [Action.isTerminal] at hnt
  | inClosed => simp [Action.isTerminal] at hnt
  | timerFire =>
      have harm : timerArmed s.state = true := hv rfl
      have hstarted : s.state = DebouncerState.TimerStarted := by
        cases hs : s.state
        · rw [hs] at harm; simp [timerArmed] at harm
        · rfl
        · rw [hs] at harm; simp [timerArmed] at harm
      have hins : ins ≠ [] := by
        intro hnil
        have := h2.mpr hnil
        rw [hstarted] at this
        cases this
      have hstep : step s Action.timerFire =
          { s with outputs := s.outputs ++ [notificationEvent s.latestRV],
                   state := DebouncerState.TimerStopped } := by
        unfold step; rw [h1]; rfl
      have hinT : inputsOf [Action.timerFire] = [] := rfl
      rw [hstep, hinT, List.append_nil]
      refine ⟨h1, ?_, ?_, h4, ?_, ?_⟩
      · constructor
        · intro h; cases h
        · intro h; exact absurd h hins
      · intro h; cases h
      · intro _
        rw [getLast?_snoc]
        exact (h4 hins).symm
      · intro _
        intro hc
        rcases List.append_eq_nil.mp hc with ⟨_, hc2⟩
        cases hc2
  | recv ev =>
      have herr : ev.error = none := by
        cases he : ev.error with
        | none => rfl
        | some msg => rw [Action.isTerminal, he] at hnt; simp at hnt
      have hins2 : inputsOf [Action.recv ev] = [ev] := by
        simp [inputsOf, List.filterMap]
      rw [hins2]
      rw [step_recv_eq s ev h1]
      cases hs : s.state with
      | FirstNotification =>
          have hnil : ins = [] := h2.mp hs
          have hout : s.outputs = [] := h3 hs
          subst hnil
          rw [stepRecv_first s ev herr hs, hout, h1]
          refine ⟨rfl, ?_, ?_, ?_, ?_, ?_⟩
          · constructor
            · intro h; cases h
            · intro h; cases h
          · intro h; cases h
          · intro _; rfl
          · intro _; rfl
          · intro _
            intro hc
            cases hc
      | TimerStopped =>
          have hins : ins ≠ [] := by
            intro hnil
            rw [h2.mpr hnil] at hs
            cases hs
          rw [stepRecv_stopped s ev herr hs, h1]
          refine ⟨rfl, ?_, ?_, ?_, ?_, ?_⟩
          · constructor
            · intro h; cases h
            · intro h
              rcases List.append_eq_nil.mp h with ⟨_, hc⟩
              cases hc
          · intro h; cases h
          · intro _
            rw [getLast?_snoc]
            rfl
          · intro hcon; exact absurd rfl hcon
          · intro _; exact h6 hins
      | TimerStarted =>
          have hins : ins ≠ [] := by
            intro hnil
            rw [h2.mpr hnil] at hs
            cases hs
          rw [stepRecv_started s ev herr hs, h1]
          refine ⟨rfl, ?_, ?_, ?_, ?_, ?_⟩
          · constructor
            · intro h; cases h
            · intro h
              rcases List.append_eq_nil.mp h with ⟨_, hc⟩
              cases hc
          · intro h; cases h
          · intro _
            rw [getLast?_snoc]
            rfl
          · intro hcon; exact absurd rfl hcon
          · intro _; exact h6 hins

/-- The invariant is preserved along any valid, non-terminal schedule. -/
theorem c1inv_loop (acts : List Action) :
    ∀ (s : DebState) (ins : List APIEvent), C1Inv s ins →
      (∀ a ∈ acts, a.isTerminal = false) → validFrom s acts = true →
      C1Inv (loopRun s acts) (ins ++ inputsOf acts) := by
  induction acts with
  | nil =>
      intro s ins hI _ _
      simpa [inputsOf] using hI
  | cons a rest ih =>
      intro s ins hI hnt hv
      have hv2 := hv
      unfold validFrom at hv2
      simp only [Bool.and_eq_true] at hv2
      rcases hv2 with ⟨hg, hrest⟩
      have hguard : a = Action.timerFire → timerArmed s.state = true := by
        intro ha
        subst ha
        simp only [Bool.or_eq_true] at hg
        rcases hg with h | h
        · rw [hI.1] at h; cases h
        · exact h
      have hstep := c1inv_step s ins a hI (hnt a (List.mem_cons_self a rest)) hguard
      have hres := ih (step s a) (ins ++ inputsOf [a]) hstep
        (fun b hb => hnt b (List.mem_cons_of_mem a hb)) hrest
      rw [inputsOf_cons a rest, ← List.append_assoc]
      exact hres

/-- Claim C1 (amended): along any valid schedule of error-free input
events with no cancellation, provided no coalescing window is still
pending when the input channel closes (the debouncer is not in
TimerStarted at that point), the debouncer has emitted at least one
notification, and the final emitted notification carries the revision of
the last input event. -/
theorem debouncer_final_revision (acts : List Action)
    (hv : validFrom initState acts = true)
    (hnt : ∀ a ∈ acts, a.isTerminal = false)
    (hne : inputsOf acts ≠ [])
    (hnp : (debouncerRun acts).state ≠ DebouncerState.TimerStarted) :
    (debouncerRun (acts ++ [Action.inClosed])).outputs ≠ [] ∧
    ((debouncerRun (acts ++ [Action.inClosed])).outputs.getLast?).map APIEvent.revision
      = ((inputsOf acts).getLast?).map APIEvent.revision := by
  have hI := c1inv_loop acts initState [] c1inv_init hnt hv
  rw [List.nil_append] at hI
  obtain ⟨h1, _h2, _h3, _h4, h5, h6⟩ := hI
  have hfin : debouncerRun (acts ++ [Action.inClosed]) =
      { debouncerRun acts with finished := true } := by
    unfold debouncerRun
    rw [loopRun_append]
    show loopRun (step (loopRun initState acts) Action.inClosed) [] = _
    show step (loopRun initState acts) Action.inClosed = _
    unfold step
    rw [h1]
    rfl
  rw [hfin]
  exact ⟨h6 hne, h5 hnp⟩

/-- Witness for amended claim C1: one event with revision 7, then input
closure; the final notification carries revision 7. -/
theorem debouncer_final_revision_witness :
    validFrom initState [Action.recv { revision := "7" }] = true ∧
    (∀ a ∈ [Action.recv ({ revision := "7" } : APIEvent)], a.isTerminal = false) ∧
    inputsOf [Action.recv { revision := "7" }] ≠ [] ∧
    (debouncerRun [Action.recv { revision := "7" }]).state ≠ DebouncerState.TimerStarted ∧
    ((debouncerRun ([Action.recv { revision := "7" }] ++ [Action.inClosed])).outputs ≠ [] ∧
     ((debouncerRun ([Action.recv { revision := "7" }] ++ [Action.inClosed])).outputs.getLast?).map
         APIEvent.revision
       = ((inputsOf [Action.recv { revision := "7" }]).getLast?).map APIEvent.revision) :=
  ⟨by decide, by decide, by decide, by decide,
    debouncer_final_revision [Action.recv { revision := "7" }]
      (by decide) (by decide) (by decide) (by decide)⟩

/-- Counterexample to claim C1 as stated: two error-free input events with
revisions 0 and 1 followed immediately by input closure (before the
pending debounce window elapses).  The run terminates having emitted only
the notification with revision 0: the latest revision 1 is dropped. -/
theorem debouncer_drops_pending_on_close :
    validFrom initState
        [Action.recv { revision := "0" }, Action.recv { revision := "1" },
         Action.inClosed] = true ∧
    inputsOf
        [Action.recv { revision := "0" }, Action.recv { revision := "1" },
         Action.inClosed]
      = [{ revision := "0" }, { revision := "1" }] ∧
    (debouncerRun
        [Action.recv { revision := "0" }, Action.recv { revision := "1" },
         Action.inClosed]).finished = true ∧
    (debouncerRun
        [Action.recv { revision := "0" }, Action.recv { revision := "1" },
         Action.inClosed]).outputs.map APIEvent.revision = ["0"] :=
  ⟨rfl, rfl, rfl, rfl⟩

/-- A position with a value is inside the list. -/
theorem getElem?_lt {α : Type} {l : List α} {n : Nat} {a : α} (h : l[n]? = some a) :
    n < l.length := by
  by_contra hn
  push_neg at hn
  rw [List.getElem?_eq_none hn] at h
  cases h

/-- Once the instrumented loop has exited, no further action changes the
state. -/
theorem loopRunI_finished (acts : List Action) :
    ∀ s : DebStateI, s.finished = true → loopRunI s acts = s := by
  induction acts with
  | nil => intro s _; rfl
  | cons a rest ih =>
      intro s hs
      have hstep : stepI s a = s := by unfold stepI; rw [hs]; rfl
      simp only [loopRunI, hstep, ih s hs]

/-- Reduction of stepI for a received event while the loop is running. -/
theorem stepI_recv_eq (s : DebStateI) (ev : APIEvent) (h : s.finished = false) :
    stepI s (Action.recv ev) = stepRecvI s ev := by
  unfold stepI; rw [h]; rfl

/-- Reduction of stepI for a timer fire while the loop is running. -/
theorem stepI_timer_eq (s : DebStateI) (h : s.finished = false) :
    stepI s Action.timerFire =
      { s with outputs := s.outputs ++ [(notificationEvent s.latestRV, s.latestPos)],
               state := DebouncerState.TimerStopped } := by
  unfold stepI; rw [h]; rfl

/-- Reduction of stepRecvI for an error event. -/
theorem stepRecvI_error (s : DebStateI) (ev : APIEvent) {msg : String}
    (he : ev.error = some msg) :
    stepRecvI s ev =
      { s with outputs :=
                 s.outputs ++ [({ ev with name := SubscriptionModeNotification }, s.count)],
               count := s.count + 1,
               finished := true } := by
  unfold stepRecvI; rw [he]

/-- Reduction of stepRecvI from FirstNotification for an error-free
event. -/
theorem stepRecvI_first (s : DebStateI) (ev : APIEvent) (he : ev.error = none)
    (hs : s.state = DebouncerState.FirstNotification) :
    stepRecvI s ev =
      { state := DebouncerState.TimerStopped, latestRV := ev.revision,
        latestPos := s.count, count := s.count + 1,
        outputs := s.outputs ++ [(notificationEvent ev.revision, s.count)],
        finished := s.finished } := by
  unfold stepRecvI; rw [he, hs]

/-- Reduction of stepRecvI from TimerStopped for an error-free event. -/
theorem stepRecvI_stopped (s : DebStateI) (ev : APIEvent) (he : ev.error = none)
    (hs : s.state = DebouncerState.TimerStopped) :
    stepRecvI s ev =
      { state := DebouncerState.TimerStarted, latestRV := ev.revision,
        latestPos := s.count, count := s.count + 1,
        outputs := s.outputs, finished := s.finished } := by
  unfold stepRecvI; rw [he, hs]

/-- Reduction of stepRecvI from TimerStarted for an error-free event. -/
theorem stepRecvI_started (s : DebStateI) (ev : APIEvent) (he : ev.error = none)
    (hs : s.state = DebouncerState.TimerStarted) :
    stepRecvI s ev =
      { state := DebouncerState.TimerStarted, latestRV := ev.revision,
        latestPos := s.count, count := s.count + 1,
        outputs := s.outputs, finished := s.finished } := by
  unfold stepRecvI; rw [he, hs]

/-- Invariant of the instrumented run: the ghost count equals the number
of inputs received, latestPos points at the input latestRV came from, all
emitted positions are bounded by latestPos, the emitted positions are
monotonically non-decreasing, and every emitted event carries the
revision of the input at its recorded position. -/
def PosInv (s : DebStateI) (ins : List APIEvent) : Prop :=
  (s.finished = false →
     s.count = ins.length ∧
     (s.state = DebouncerState.FirstNotification → s.outputs = [] ∧ s.count = 0) ∧
     (s.state ≠ DebouncerState.FirstNotification →
        (ins[s.latestPos]?).map APIEvent.revision = some s.latestRV ∧
        s.latestPos < ins.length ∧
        ∀ q ∈ s.outputs.map Prod.snd, q ≤ s.latestPos)) ∧
  List.Chain' (fun p q => p ≤ q) (s.outputs.map Prod.snd) ∧
  ∀ p ∈ s.outputs, (ins[p.2]?).map APIEvent.revision = some p.1.revision

/-- The instrumented invariant holds initially. -/
theorem posinv_init : PosInv initStateI [] := by
  refine ⟨?_, ?_, ?_⟩
  · intro _
    refine ⟨rfl, fun _ => ⟨rfl, rfl⟩, fun h => absurd rfl h⟩
  · exact List.chain'_nil
  · intro p hp
    cases hp

/-- The instrumented invariant is stable under extending the inputs once
the loop has exited. -/
theorem posinv_append (s : DebStateI) (ins more : List APIEvent)
    (hI : PosInv s ins) (hf : s.finished = true) : PosInv s (ins ++ more) := by
  obtain ⟨_, hchain, hcorr⟩ := hI
  refine ⟨?_, hchain, ?_⟩
  · intro hc; rw [hf] at hc; cases hc
  · intro p hp
    have h := hcorr p hp
    have hlt : p.2 < ins.length := by
      cases hx : ins[p.2]? with
      | none => rw [hx] at h; cases h
      | some v => exact getElem?_lt hx
    rw [List.getElem?_append_left hlt]
    exact h

/-- One valid step preserves the instrumented invariant. -/
theorem posinv_step (s : DebStateI) (ins : List APIEvent) (a : Action)
    (hI : PosInv s ins) (hf : s.finished = false)
    (hguard : a = Action.timerFire → timerArmed s.state = true) :
    PosInv (stepI s a) (ins ++ inputsOf [a]) := by
  obtain ⟨hrun, hchain, hcorr⟩ := hI
  obtain ⟨hcount, hfirst, hpast⟩ := hrun hf
  have hstable : ∀ p ∈ s.outputs,
      ((ins ++ inputsOf [a])[p.2]?).map APIEvent.revision = some p.1.revision := by
    intro p hp
    have h := hcorr p hp
    have hlt : p.2 < ins.length := by
      cases hx : ins[p.2]? with
      | none => rw [hx] at h; cases h
      | some v => exact getElem?_lt hx
    rw [List.getElem?_append_left hlt]
    exact h
  have hboundc : ∀ q ∈ s.outputs.map Prod.snd, q ≤ s.count := by
    intro q hq
    cases hsx : s.state with
    | FirstNotification =>
        obtain ⟨ho, _⟩ := hfirst hsx
        rw [ho] at hq
        cases hq
    | TimerStopped =>
        obtain ⟨_, hllt, hb⟩ := hpast (by intro hc; rw [hsx] at hc; cases hc)
        have hlp : s.latestPos < s.count := by rw [hcount]; exact hllt
        exact Nat.le_trans (hb q hq) (Nat.le_of_lt hlp)
    | TimerStarted =>
        obtain ⟨_, hllt, hb⟩ := hpast (by intro hc; rw [hsx] at hc; cases hc)
        have hlp : s.latestPos < s.count := by rw [hcount]; exact hllt
        exact Nat.le_trans (hb q hq) (Nat.le_of_lt hlp)
  cases a with
  | ctxDone =>
      have hstep : stepI s Action.ctxDone = { s with finished := true } := by
        unfold stepI; rw [hf]; rfl
      rw [hstep, show inputsOf [Action.ctxDone] = [] from rfl, List.append_nil]
      exact ⟨(fun hc => nomatch hc), hchain, hcorr⟩
  | inClosed =>
      have hstep : stepI s Action.inClosed = { s with finished := true } := by
        unfold stepI; rw [hf]; rfl
      rw [hstep, show inputsOf [Action.inClosed] = [] from rfl, List.append_nil]
      exact ⟨(fun hc => nomatch hc), hchain, hcorr⟩
  | timerFire =>
      have harm := hguard rfl
      have hstarted : s.state = DebouncerState.TimerStarted := by
        cases hsx : s.state
        · rw [hsx] at harm; simp [timerArmed] at harm
        · rfl
        · rw [hsx] at harm; simp [timerArmed] at harm
      obtain ⟨hlook, hllt, hbound⟩ := hpast (by intro hc; rw [hstarted] at hc; cases hc)
      rw [stepI_timer_eq s hf, show inputsOf [Action.timerFire] = [] from rfl,
        List.append_nil]
      refine ⟨?_, ?_, ?_⟩
      · intro _
        refine ⟨hcount, ?_, ?_⟩
        · intro hcc; cases hcc
        · intro _
          refine ⟨hlook, hllt, ?_⟩
          intro q hq
          rw [List.map_append] at hq
          rcases List.mem_append.mp hq with hq | hq
          · exact hbound q hq
          · have : q = s.latestPos := by simpa using hq
            subst this
            exact Nat.le_refl _
      · rw [List.map_append]
        apply List.Chain'.append hchain (List.chain'_singleton _)
        intro x hx y hy
        have hy2 : s.latestPos = y := by simpa using hy
        subst hy2
        exact hbound x (List.mem_of_mem_getLast? hx)
      · intro p hp
        rcases List.mem_append.mp hp with hp | hp
        · exact hcorr p hp
        · have : p = (notificationEvent s.latestRV, s.latestPos) := by simpa using hp
          subst this
          exact hlook
  | recv ev =>
      rw [stepI_recv_eq s ev hf, show inputsOf [Action.recv ev] = [ev] from rfl]
      cases he : ev.error with
      | some msg =>
          rw [stepRecvI_error s ev he]
          refine ⟨?_, ?_, ?_⟩
          · intro hc; cases hc
          · rw [List.map_append]
            apply List.Chain'.append hchain (List.chain'_singleton _)
            intro x hx y hy
            have hy2 : s.count = y := by simpa using hy
            subst hy2
            exact hboundc x (List.mem_of_mem_getLast? hx)
          · intro p hp
            rcases List.mem_append.mp hp with hp | hp
            · exact hstable p hp
            · have : p = ({ ev with name := SubscriptionModeNotification }, s.count) := by
                simpa using hp
              subst this
              show ((ins ++ [ev])[s.count]?).map APIEvent.revision = _
              rw [hcount, List.getElem?_concat_length]
              rfl
      | none =>
          cases hsx : s.state with
          | FirstNotification =>
              obtain ⟨ho, hc0⟩ := hfirst hsx
              have hnil : ins = [] := List.length_eq_zero.mp (hcount.symm.trans hc0)
              subst hnil
              rw [stepRecvI_first s ev he hsx, ho, hc0]
              refine ⟨?_, ?_, ?_⟩
              · intro _
                refine ⟨rfl, ?_, ?_⟩
                · intro hcc; cases hcc
                · intro _
                  refine ⟨rfl, Nat.one_pos, ?_⟩
                  intro q hq
                  have : q = 0 := by simpa using hq
                  subst this
                  exact Nat.le_refl 0
              · exact List.chain'_singleton _
              · intro p hp
                have : p = (notificationEvent ev.revision, 0) := by simpa using hp
                subst this
                rfl
          | TimerStopped =>
              rw [stepRecvI_stopped s ev he hsx]
              refine ⟨?_, hchain, hstable⟩
              intro _
              refine ⟨?_, ?_, ?_⟩
              · rw [List.length_append, hcount]
                rfl
              · intro hcc; cases hcc
              · intro _
                refine ⟨?_, ?_, ?_⟩
                · show ((ins ++ [ev])[s.count]?).map APIEvent.revision = some ev.revision
                  rw [hcount, List.getElem?_concat_length]
                  rfl
                · show s.count < (ins ++ [ev]).length
                  rw [List.length_append, hcount]
                  exact Nat.lt_succ_self _
                · intro q hq
                  exact hboundc q hq
          | TimerStarted =>
              rw [stepRecvI_started s ev he hsx]
              refine ⟨?_, hchain, hstable⟩
              intro _
              refine ⟨?_, ?_, ?_⟩
              · rw [List.length_append, hcount]
                rfl
              · intro hcc; cases hcc
              · intro _
                refine ⟨?_, ?_, ?_⟩
                · show ((ins ++ [ev])[s.count]?).map APIEvent.revision = some ev.revision
                  rw [hcount, List.getElem?_concat_length]
                  rfl
                · show s.count < (ins ++ [ev]).length
                  rw [List.length_append, hcount]
                  exact Nat.lt_succ_self _
                · intro q hq
                  exact hboundc q hq

/-- The instrumented invariant is preserved along any valid schedule. -/
theorem posinv_loop (acts : List Action) :
    ∀ (s : DebStateI) (ins : List APIEvent), PosInv s ins →
      validFrom (eraseI s) acts = true →
      PosInv (loopRunI s acts) (ins ++ inputsOf acts) := by
  induction acts with
  | nil =>
      intro s ins hI _
      simpa [inputsOf] using hI
  | cons a rest ih =>
      intro s ins hI hv
      unfold validFrom at hv
      simp only [Bool.and_eq_true] at hv
      rcases hv with ⟨hg, hrest⟩
      cases hfc : s.finished with
      | true =>
          rw [loopRunI_finished (a :: rest) s hfc]
          exact posinv_append s ins (inputsOf (a :: rest)) hI hfc
      | false =>
          have hguard : a = Action.timerFire → timerArmed s.state = true := by
            intro ha
            subst ha
            simp only [Bool.or_eq_true] at hg
            rcases hg with h | h
            · have hfe : (eraseI s).finished = s.finished := rfl
              rw [hfe, hfc] at h
              cases h
            · exact h
          have hstep := posinv_step s ins a hI hfc hguard
          have hrest2 : validFrom (eraseI (stepI s a)) rest = true := by
            rw [eraseI_step]
            exact hrest
          have hres := ih (stepI s a) (ins ++ inputsOf [a]) hstep hrest2
          rw [inputsOf_cons a rest, ← List.append_assoc]
          exact hres

/-- Claim C7: for every valid schedule, the debouncer emissions coincide
with the instrumented run, whose recorded input positions are
monotonically non-decreasing in input order, and each emitted
notification carries the revision of the input event at its recorded
position: the revision watermark never regresses relative to input
order. -/
theorem debouncer_revisions_monotone (acts : List Action)
    (hv : validFrom initState acts = true) :
    (debouncerRun acts).outputs = (debouncerRunI acts).outputs.map Prod.fst ∧
    List.Chain' (fun p q => p ≤ q) ((debouncerRunI acts).outputs.map Prod.snd) ∧
    ∀ p ∈ (debouncerRunI acts).outputs,
      ((inputsOf acts)[p.2]?).map APIEvent.revision = some p.1.revision := by
  have hbase : validFrom (eraseI initStateI) acts = true := hv
  have h := posinv_loop acts initStateI [] posinv_init hbase
  rw [List.nil_append] at h
  refine ⟨?_, h.2.1, h.2.2⟩
  rw [← eraseI_run acts]
  rfl

/-- Witness for claim C7 at a concrete one-event schedule. -/
theorem debouncer_revisions_monotone_witness :
    validFrom initState [Action.recv { revision := "5" }] = true ∧
    ((debouncerRun [Action.recv { revision := "5" }]).outputs
        = (debouncerRunI [Action.recv { revision := "5" }]).outputs.map Prod.fst ∧
     List.Chain' (fun p q => p ≤ q)
        ((debouncerRunI [Action.recv { revision := "5" }]).outputs.map Prod.snd) ∧
     ∀ p ∈ (debouncerRunI [Action.recv { revision := "5" }]).outputs,
       ((inputsOf [Action.recv { revision := "5" }])[p.2]?).map APIEvent.revision
         = some p.1.revision) :=
  ⟨by decide, debouncer_revisions_monotone [Action.recv { revision := "5" }] (by decide)⟩

/-- Reduction of stream when the schema is absent. -/
theorem stream_none (env : WatchEnv) (sub : Subscribe)
    (h : lookupSchema env.schemas sub.resourceType = none) :
    stream env sub = Except.error StreamErr.SchemaNotFound := by
  unfold stream; rw [h]

/-- Reduction of stream when the schema resolves. -/
theorem stream_some (env : WatchEnv) (sub : Subscribe) (sch : SchemaM)
    (h : lookupSchema env.schemas sub.resourceType = some sch) :
    stream env sub =
      (if sch.hasWatchStore = true then
        (if env.canWatch = true then
          (match env.watchErr with
           | some msg => Except.error (StreamErr.UpstreamWatchError msg)
           | none => Except.ok (startEvent sub :: env.upstream.map (relayEvent sub)))
         else Except.error StreamErr.Forbidden)
       else Except.error StreamErr.UnsupportedOperation) := by
  unfold stream; rw [h]

/-- Claim C5: a start request whose resource type has no registered
schema, or whose schema's store does not support watching, or for which
access control denies watching, fails synchronously: stream returns an
error, nothing is written to the outbound channel, and no pump is
registered. -/
theorem stream_start_failure (env : WatchEnv) (sub : Subscribe) (pumps : List String)
    (h : lookupSchema env.schemas sub.resourceType = none
       ∨ (∃ sch, lookupSchema env.schemas sub.resourceType = some sch ∧
            sch.hasWatchStore = false)
       ∨ env.canWatch = false)
    (hk : watchKey sub ∉ pumps) :
    (∃ e, stream env sub = Except.error e) ∧
    (startPump pumps env sub).pumps = pumps ∧
    (startPump pumps env sub).emitted = [] ∧
    (startPump pumps env sub).err.isSome = true := by
  have herr : ∃ e, stream env sub = Except.error e := by
    rcases h with hnone | ⟨sch, hsch, hstore⟩ | hcw
    · rw [stream_none env sub hnone]
      exact ⟨StreamErr.SchemaNotFound, rfl⟩
    · rw [stream_some env sub sch hsch, if_neg (by simp [hstore])]
      exact ⟨StreamErr.UnsupportedOperation, rfl⟩
    · cases hl : lookupSchema env.schemas sub.resourceType with
      | none =>
          rw [stream_none env sub hl]
          exact ⟨StreamErr.SchemaNotFound, rfl⟩
      | some sch =>
          rw [stream_some env sub sch hl]
          by_cases hw : sch.hasWatchStore = true
          · rw [if_pos hw, if_neg (by simp [hcw])]
            exact ⟨StreamErr.Forbidden, rfl⟩
          · rw [if_neg hw]
            exact ⟨StreamErr.UnsupportedOperation, rfl⟩
  rcases herr with ⟨e, he⟩
  have hsp : startPump pumps env sub = { pumps := pumps, err := some e } := by
    unfold startPump
    rw [if_neg hk, he]
  rw [hsp]
  exact ⟨⟨e, he⟩, rfl, rfl, rfl⟩

/-- Witness for claim C5: a start for a resource type with no registered
schema against an empty session. -/
theorem stream_start_failure_witness :
    lookupSchema (WatchEnv.mk [] true [] none).schemas
        (Subscribe.mk "notaresource" "" "" "" "" "" false).resourceType = none ∧
    watchKey (Subscribe.mk "notaresource" "" "" "" "" "" false) ∉ ([] : List String) ∧
    ((∃ e, stream (WatchEnv.mk [] true [] none)
        (Subscribe.mk "notaresource" "" "" "" "" "" false) = Except.error e) ∧
     (startPump [] (WatchEnv.mk [] true [] none)
        (Subscribe.mk "notaresource" "" "" "" "" "" false)).pumps = [] ∧
     (startPump [] (WatchEnv.mk [] true [] none)
        (Subscribe.mk "notaresource" "" "" "" "" "" false)).emitted = [] ∧
     (startPump [] (WatchEnv.mk [] true [] none)
        (Subscribe.mk "notaresource" "" "" "" "" "" false)).err.isSome = true) :=
  ⟨rfl, by simp,
    stream_start_failure (WatchEnv.mk [] true [] none)
      (Subscribe.mk "notaresource" "" "" "" "" "" false) []
      (Or.inl rfl) (by simp)⟩

/-- Claim C6: every successful stream call emits the resource.start event
first, before any relayed upstream event; the start event carries the
scope fields of the request (resourceType, id, namespace, selector,
mode). -/
theorem stream_start_event_first (env : WatchEnv) (sub : Subscribe)
    (outs : List APIEvent) (h : stream env sub = Except.ok outs) :
    outs.head? = some (startEvent sub) ∧
    (startEvent sub).name = "resource.start" ∧
    (startEvent sub).resourceType = sub.resourceType ∧
    (startEvent sub).id = sub.id ∧
    (startEvent sub).ns = sub.ns ∧
    (startEvent sub).selector = sub.selector ∧
    (startEvent sub).mode = sub.mode ∧
    outs = startEvent sub :: env.upstream.map (relayEvent sub) := by
  cases hl : lookupSchema env.schemas sub.resourceType with
  | none =>
      rw [stream_none env sub hl] at h
      cases h
  | some sch =>
      rw [stream_some env sub sch hl] at h
      by_cases hw : sch.hasWatchStore = true
      · rw [if_pos hw] at h
        by_cases hc : env.canWatch = true
        · rw [if_pos hc] at h
          cases hwe : env.watchErr with
          | some msg =>
              rw [hwe] at h
              have h2 : Except.error (StreamErr.UpstreamWatchError msg)
                  = Except.ok outs := h
              cases h2
          | none =>
              rw [hwe] at h
              have h2 : Except.ok (startEvent sub :: env.upstream.map (relayEvent sub))
                  = Except.ok outs := h
              injection h2 with h3
              subst h3
              exact ⟨rfl, rfl, rfl, rfl, rfl, rfl, rfl, rfl⟩
        · rw [if_neg hc] at h; cases h
      · rw [if_neg hw] at h; cases h

/-- Witness for claim C6: a successful start with an empty upstream. -/
theorem stream_start_event_first_witness :
    stream (WatchEnv.mk [("w", SchemaM.mk true)] true [] none)
        (Subscribe.mk "w" "i" "n" "s" "" "" false)
      = Except.ok [startEvent (Subscribe.mk "w" "i" "n" "s" "" "" false)] ∧
    ([startEvent (Subscribe.mk "w" "i" "n" "s" "" "" false)].head?
        = some (startEvent (Subscribe.mk "w" "i" "n" "s" "" "" false)) ∧
     (startEvent (Subscribe.mk "w" "i" "n" "s" "" "" false)).name = "resource.start" ∧
     (startEvent (Subscribe.mk "w" "i" "n" "s" "" "" false)).resourceType = "w" ∧
     (startEvent (Subscribe.mk "w" "i" "n" "s" "" "" false)).id = "i" ∧
     (startEvent (Subscribe.mk "w" "i" "n" "s" "" "" false)).ns = "n" ∧
     (startEvent (Subscribe.mk "w" "i" "n" "s" "" "" false)).selector = "s" ∧
     (startEvent (Subscribe.mk "w" "i" "n" "s" "" "" false)).mode = "" ∧
     [startEvent (Subscribe.mk "w" "i" "n" "s" "" "" false)]
        = startEvent (Subscribe.mk "w" "i" "n" "s" "" "" false)
            :: (WatchEnv.mk [("w", SchemaM.mk true)] true [] none).upstream.map
                 (relayEvent (Subscribe.mk "w" "i" "n" "s" "" "" false))) :=
  ⟨rfl,
    stream_start_event_first (WatchEnv.mk [("w", SchemaM.mk true)] true [] none)
      (Subscribe.mk "w" "i" "n" "s" "" "" false)
      [startEvent (Subscribe.mk "w" "i" "n" "s" "" "" false)] rfl⟩

/-- The collaborators of the notification-mode scenario, as in the test:
one watchable schema and an upstream watch producing a single change
event. -/
def notifEnv : WatchEnv :=
  { schemas := [("watchable-resource", { hasWatchStore := true })],
    canWatch := true,
    upstream := [{ name := "resource.create", data := some "data" }],
    watchErr := none }

/-- The notification-mode subscribe request of the scenario. -/
def notifSub : Subscribe :=
  { resourceType := "watchable-resource", mode := SubscriptionModeNotification }

/-- Claim C9: starting a watch in notification mode on a store that
delivers one change event yields the outbound sequence resource.start then
resource.changes, both carrying the notification mode, and the
resource.changes event carries no data payload; correspondingly the
debouncer passes the single change notification through immediately. -/
theorem stream_notification_mode :
    stream notifEnv notifSub = Except.ok
      [{ name := "resource.start", resourceType := "watchable-resource",
         mode := SubscriptionModeNotification },
       { name := SubscriptionModeNotification, resourceType := "watchable-resource",
         mode := SubscriptionModeNotification, data := none }] ∧
    (debouncerRun [Action.recv { name := "resource.create", data := some "data" },
        Action.inClosed]).outputs = [notificationEvent ""] :=
  ⟨rfl, rfl⟩

end Apiserver
